import Mathlib

/-
Verification of the pagination/streaming engine of the jquants-go client
(src/client.go): the bulk paginator `fetchAllPages`, the streaming paginator
`fetchAllPagesWithChannel`, the error classification `handleErrorResponse`,
and the retry / deadline policy.

Modelling conventions:
- A page fetch callback is modelled by a trace: a list of fetch outcomes,
  one consumed per invocation of the callback.  A run that exhausts the
  trace before the loop terminates has result `none` (the Go run would
  keep calling the callback).
- Go's `*string` pagination key is `Option String`; a Go `nil` slice is
  distinguished from an empty slice by `Option (List T)`.
- `errors.As(err, &InternalServerError{})` is modelled by a constructor
  test: in the source no error value ever wraps an `InternalServerError`,
  so the `errors.As` unwrap chain degenerates to a top-level type test.
- For the deadline claim a second, timed model carries an explicit clock:
  each trace step has a duration, the backoff sleep advances the clock by
  the retry interval (Go's `time.Sleep` is not context-aware), and a fetch
  issued at or after the deadline fails immediately with a
  deadline-exceeded error (Go's `http.Client.Do` with an expired context).
-/

set_option autoImplicit false

namespace JQuants

/-- One page of a paginated API response: the `Response[T]` /
`paginatedResponse[T]` contract of src/client.go, i.e. `Items() []T` and
`NextPageKey() *string` (resp. `getData`/`getPaginationKey`). -/
structure Page (T : Type) where
  items : List T
  paginationKey : Option String
deriving Repr, DecidableEq

/-- The error taxonomy of src/client.go: the five typed HTTP error structs,
the untyped error returned for an unrecognized status code, transport
failures from `HttpClient.Do`, response-decoding failures from
`decodeResponse`, and the context's deadline-exceeded error. -/
inductive JQError where
  | badRequest (msg : String)
  | unauthorized (msg : String)
  | forbidden (msg : String)
  | payloadTooLarge (msg : String)
  | internalServerError (msg : String)
  | plain (msg : String)
  | transport (msg : String)
  | decodeFailure (msg : String)
  | deadlineExceeded
deriving Repr, DecidableEq

/-- The transiency test of both pagination loops:
`errors.As(err, &InternalServerError{})` in src/client.go.  No error built
by the client wraps an `InternalServerError`, so this is a top-level
constructor test. -/
def isInternalServerError : JQError → Bool
  | .internalServerError _ => true
  | _ => false

/-- The `handleErrorResponse` status-code switch of src/client.go:
400/401/403/413/500 map to the typed error structs, any other status code
returns the decoded error message unwrapped. -/
def handleErrorResponse (statusCode : Nat) (decodedMsg : String) : JQError :=
  if statusCode = 400 then .badRequest decodedMsg
  else if statusCode = 401 then .unauthorized decodedMsg
  else if statusCode = 403 then .forbidden decodedMsg
  else if statusCode = 413 then .payloadTooLarge decodedMsg
  else if statusCode = 500 then .internalServerError decodedMsg
  else .plain decodedMsg

/-- One invocation of the fetch callback either yields a page or an error
(the `(R, error)` return of `fetchPage`). -/
inductive FetchOutcome (T : Type) where
  | success (page : Page T)
  | failure (e : JQError)
deriving Repr, DecidableEq

/-- The `([]T, error)` pair returned by `fetchAllPages`.  `data = none`
models a Go `nil` slice; `data = some []` the non-nil empty slice created
by `make([]T, 0)`. -/
structure GoReturn (T : Type) where
  data : Option (List T)
  err : Option JQError
deriving Repr, DecidableEq

/-- Everything observable about one run of the bulk pagination loop:
the returned pair (`none` when the trace was exhausted before the loop
terminated), the number of fetch calls made, and the pagination key passed
to each successive fetch call. -/
structure BulkRun (T : Type) where
  result : Option (GoReturn T)
  calls : Nat
  keys : List (Option String)
deriving Repr, DecidableEq

/-- The loop body of `fetchAllPages` (src/client.go): call the callback
with the current pagination key; on an `InternalServerError` sleep and
retry with the same key; on any other error return `(nil, err)`; on
success append the page's items, take its pagination key, and stop with
`(data, nil)` when that key is nil. -/
def fetchAllPagesLoop {T : Type} :
    List (FetchOutcome T) → Option String → List T → BulkRun T
  | [], _, _ => ⟨none, 0, []⟩
  | .failure e :: rest, key, data =>
    if isInternalServerError e then
      let r := fetchAllPagesLoop rest key data
      ⟨r.result, r.calls + 1, key :: r.keys⟩
    else
      ⟨some ⟨none, some e⟩, 1, [key]⟩
  | .success p :: rest, key, data =>
    match p.paginationKey with
    | none => ⟨some ⟨some (data ++ p.items), none⟩, 1, [key]⟩
    | some k =>
      let r := fetchAllPagesLoop rest (some k) (data ++ p.items)
      ⟨r.result, r.calls + 1, key :: r.keys⟩

/-- `fetchAllPages` of src/client.go: start with a nil pagination key and
the non-nil empty slice `make([]T, 0)`. -/
def fetchAllPages {T : Type} (trace : List (FetchOutcome T)) : BulkRun T :=
  fetchAllPagesLoop trace none []

/-- Everything observable about one run of the streaming pagination loop
`fetchAllPagesWithChannel`: the returned error value (`none` when the
trace was exhausted), the items sent to the channel in order, whether
`close(ch)` was executed, the number of fetch calls, and the key passed to
each fetch call. -/
structure StreamRun (T : Type) where
  returned : Option (Option JQError)
  sent : List T
  closed : Bool
  calls : Nat
  keys : List (Option String)
deriving Repr, DecidableEq

/-- The loop body of `fetchAllPagesWithChannel` (src/client.go): like the
bulk loop, but each fetched page's items are sent to the channel as soon
as the page arrives; `close(ch)` is executed only after the loop breaks on
a nil pagination key — a terminal failure returns the error without
closing the channel. -/
def fetchAllPagesWithChannelLoop {T : Type} :
    List (FetchOutcome T) → Option String → StreamRun T
  | [], _ => ⟨none, [], false, 0, []⟩
  | .failure e :: rest, key =>
    if isInternalServerError e then
      let r := fetchAllPagesWithChannelLoop rest key
      ⟨r.returned, r.sent, r.closed, r.calls + 1, key :: r.keys⟩
    else
      ⟨some (some e), [], false, 1, [key]⟩
  | .success p :: rest, key =>
    match p.paginationKey with
    | none => ⟨some none, p.items, true, 1, [key]⟩
    | some k =>
      let r := fetchAllPagesWithChannelLoop rest (some k)
      ⟨r.returned, p.items ++ r.sent, r.closed, r.calls + 1, key :: r.keys⟩

/-- `fetchAllPagesWithChannel` of src/client.go, started with a nil key. -/
def fetchAllPagesWithChannel {T : Type} (trace : List (FetchOutcome T)) :
    StreamRun T :=
  fetchAllPagesWithChannelLoop trace none

/- Timed model for the deadline policy. -/

/-- A trace step of the timed model: the wall-clock duration of the fetch
attempt together with its outcome. -/
structure TimedStep (T : Type) where
  dur : Nat
  out : FetchOutcome T
deriving Repr, DecidableEq

/-- An observable event of a timed run: a fetch call starting at a given
time with a given pagination key, or a backoff sleep starting at a given
time. -/
inductive Event where
  | fetchCall (start : Nat) (key : Option String)
  | sleepCall (start : Nat)
deriving Repr, DecidableEq

/-- The outcome of a timed run: the returned pair, the timed events in
order, and the clock value when the run ends. -/
structure TimedRun (T : Type) where
  result : Option (GoReturn T)
  events : List Event
  finish : Nat
deriving Repr, DecidableEq

/-- The timed bulk loop of `fetchAllPages`: `context.WithTimeout` fixes
the deadline once at the start of the run.  A fetch issued at or after the
deadline fails at once with the context's deadline-exceeded error, which
is not an `InternalServerError` and therefore terminal; a fetch whose
duration crosses the deadline is cut off by the context with the same
error.  A transient failure triggers `time.Sleep(RetryInterval)`, which is
not context-aware: the clock advances by the full retry interval no matter
the deadline. -/
def timedFetchAllPagesLoop {T : Type} (retryInterval deadline : Nat) :
    List (TimedStep T) → Option String → List T → Nat → TimedRun T
  | [], key, _, t =>
    if deadline ≤ t then
      ⟨some ⟨none, some .deadlineExceeded⟩, [.fetchCall t key], t⟩
    else
      ⟨none, [.fetchCall t key], t⟩
  | step :: rest, key, data, t =>
    if deadline ≤ t then
      ⟨some ⟨none, some .deadlineExceeded⟩, [.fetchCall t key], t⟩
    else if deadline ≤ t + step.dur then
      ⟨some ⟨none, some .deadlineExceeded⟩, [.fetchCall t key], deadline⟩
    else
      match step.out with
      | .failure e =>
        if isInternalServerError e then
          let r := timedFetchAllPagesLoop retryInterval deadline rest key data
            (t + step.dur + retryInterval)
          ⟨r.result, .fetchCall t key :: .sleepCall (t + step.dur) :: r.events,
            r.finish⟩
        else
          ⟨some ⟨none, some e⟩, [.fetchCall t key], t + step.dur⟩
      | .success p =>
        match p.paginationKey with
        | none =>
          ⟨some ⟨some (data ++ p.items), none⟩, [.fetchCall t key], t + step.dur⟩
        | some k =>
          let r := timedFetchAllPagesLoop retryInterval deadline rest (some k)
            (data ++ p.items) (t + step.dur)
          ⟨r.result, .fetchCall t key :: r.events, r.finish⟩

/-- A timed run of `fetchAllPages` from clock 0 with a nil key. -/
def timedFetchAllPages {T : Type} (retryInterval deadline : Nat)
    (steps : List (TimedStep T)) : TimedRun T :=
  timedFetchAllPagesLoop retryInterval deadline steps none [] 0

/-- The outcome of a timed streaming run: the returned error value, the
items sent, whether `close(ch)` was executed, the timed events in order,
and the clock value when the run ends. -/
structure TimedStreamRun (T : Type) where
  returned : Option (Option JQError)
  sent : List T
  closed : Bool
  events : List Event
  finish : Nat
deriving Repr, DecidableEq

/-- The timed streaming loop of `fetchAllPagesWithChannel`: the same
deadline regime as the timed bulk loop — `context.WithTimeout` fixed once
at the start, a fetch issued at or after the deadline (or cut off by it)
failing with the terminal deadline-exceeded error, and a context-blind
`time.Sleep` advancing the clock by the full retry interval — with each
fetched page's items sent as the page arrives and `close(ch)` executed
only on the nil-pagination-key success path, so a deadline-exceeded abort,
like any terminal failure, leaves the channel unclosed. -/
def timedFetchAllPagesWithChannelLoop {T : Type} (retryInterval deadline : Nat) :
    List (TimedStep T) → Option String → Nat → TimedStreamRun T
  | [], key, t =>
    if deadline ≤ t then
      ⟨some (some .deadlineExceeded), [], false, [.fetchCall t key], t⟩
    else
      ⟨none, [], false, [.fetchCall t key], t⟩
  | step :: rest, key, t =>
    if deadline ≤ t then
      ⟨some (some .deadlineExceeded), [], false, [.fetchCall t key], t⟩
    else if deadline ≤ t + step.dur then
      ⟨some (some .deadlineExceeded), [], false, [.fetchCall t key], deadline⟩
    else
      match step.out with
      | .failure e =>
        if isInternalServerError e then
          let r := timedFetchAllPagesWithChannelLoop retryInterval deadline rest
            key (t + step.dur + retryInterval)
          ⟨r.returned, r.sent, r.closed,
            .fetchCall t key :: .sleepCall (t + step.dur) :: r.events, r.finish⟩
        else
          ⟨some (some e), [], false, [.fetchCall t key], t + step.dur⟩
      | .success p =>
        match p.paginationKey with
        | none =>
          ⟨some none, p.items, true, [.fetchCall t key], t + step.dur⟩
        | some k =>
          let r := timedFetchAllPagesWithChannelLoop retryInterval deadline rest
            (some k) (t + step.dur)
          ⟨r.returned, p.items ++ r.sent, r.closed,
            .fetchCall t key :: r.events, r.finish⟩

/- Unfolding lemmas for the four branches of the bulk loop body. -/

theorem fetchAllPagesLoop_failure_transient {T : Type} (e : JQError)
    (rest : List (FetchOutcome T)) (key : Option String) (data : List T)
    (h : isInternalServerError e = true) :
    fetchAllPagesLoop (.failure e :: rest) key data =
      ⟨(fetchAllPagesLoop rest key data).result,
       (fetchAllPagesLoop rest key data).calls + 1,
       key :: (fetchAllPagesLoop rest key data).keys⟩ := by
  simp [fetchAllPagesLoop, h]

theorem fetchAllPagesLoop_failure_terminal {T : Type} (e : JQError)
    (rest : List (FetchOutcome T)) (key : Option String) (data : List T)
    (h : isInternalServerError e = false) :
    fetchAllPagesLoop (.failure e :: rest) key data =
      ⟨some ⟨none, some e⟩, 1, [key]⟩ := by
  simp [fetchAllPagesLoop, h]

theorem fetchAllPagesLoop_success_none {T : Type} (p : Page T)
    (rest : List (FetchOutcome T)) (key : Option String) (data : List T)
    (h : p.paginationKey = none) :
    fetchAllPagesLoop (.success p :: rest) key data =
      ⟨some ⟨some (data ++ p.items), none⟩, 1, [key]⟩ := by
  simp [fetchAllPagesLoop, h]

theorem fetchAllPagesLoop_success_some {T : Type} (p : Page T) (k : String)
    (rest : List (FetchOutcome T)) (key : Option String) (data : List T)
    (h : p.paginationKey = some k) :
    fetchAllPagesLoop (.success p :: rest) key data =
      ⟨(fetchAllPagesLoop rest (some k) (data ++ p.items)).result,
       (fetchAllPagesLoop rest (some k) (data ++ p.items)).calls + 1,
       key :: (fetchAllPagesLoop rest (some k) (data ++ p.items)).keys⟩ := by
  simp [fetchAllPagesLoop, h]

/-- The first fetch call of the bulk loop is made with the key the loop was
entered with. -/
theorem fetchAllPagesLoop_keys_zero {T : Type} (trace : List (FetchOutcome T))
    (key : Option String) (data : List T) :
    (fetchAllPagesLoop trace key data).keys[0]? =
      if trace.isEmpty then none else some key := by
  match trace with
  | [] => simp [fetchAllPagesLoop]
  | .failure e :: rest =>
    by_cases he : isInternalServerError e
    · rw [fetchAllPagesLoop_failure_transient e rest key data he]
      simp
    · rw [fetchAllPagesLoop_failure_terminal e rest key data
        (Bool.not_eq_true _ ▸ he)]
      simp
  | .success p :: rest =>
    cases hp : p.paginationKey with
    | none =>
      rw [fetchAllPagesLoop_success_none p rest key data hp]
      simp
    | some k =>
      rw [fetchAllPagesLoop_success_some p k rest key data hp]
      simp

/-- The bulk loop makes zero fetch calls exactly on the empty trace. -/
theorem fetchAllPagesLoop_calls_eq_zero {T : Type} (trace : List (FetchOutcome T))
    (key : Option String) (data : List T) :
    (fetchAllPagesLoop trace key data).calls = 0 ↔ trace = [] := by
  match trace with
  | [] => simp [fetchAllPagesLoop]
  | .failure e :: rest =>
    by_cases he : isInternalServerError e
    · rw [fetchAllPagesLoop_failure_transient e rest key data he]
      simp
    · rw [fetchAllPagesLoop_failure_terminal e rest key data
        (Bool.not_eq_true _ ▸ he)]
      simp
  | .success p :: rest =>
    cases hp : p.paginationKey with
    | none =>
      rw [fetchAllPagesLoop_success_none p rest key data hp]
      simp
    | some k =>
      rw [fetchAllPagesLoop_success_some p k rest key data hp]
      simp

/-- The bulk loop records one key per fetch call. -/
theorem fetchAllPagesLoop_keys_length {T : Type} :
    ∀ (trace : List (FetchOutcome T)) (key : Option String) (data : List T),
      (fetchAllPagesLoop trace key data).keys.length =
        (fetchAllPagesLoop trace key data).calls
  | [], _, _ => rfl
  | .failure e :: rest, key, data => by
    by_cases he : isInternalServerError e
    · rw [fetchAllPagesLoop_failure_transient e rest key data he]
      simpa using fetchAllPagesLoop_keys_length rest key data
    · rw [fetchAllPagesLoop_failure_terminal e rest key data
        (Bool.not_eq_true _ ▸ he)]
      rfl
  | .success p :: rest, key, data => by
    cases hp : p.paginationKey with
    | none =>
      rw [fetchAllPagesLoop_success_none p rest key data hp]
      rfl
    | some k =>
      rw [fetchAllPagesLoop_success_some p k rest key data hp]
      simpa using fetchAllPagesLoop_keys_length rest (some k) (data ++ p.items)

/- Unfolding lemmas for the four branches of the streaming loop body. -/

theorem fetchAllPagesWithChannelLoop_failure_transient {T : Type} (e : JQError)
    (rest : List (FetchOutcome T)) (key : Option String)
    (h : isInternalServerError e = true) :
    fetchAllPagesWithChannelLoop (.failure e :: rest) key =
      ⟨(fetchAllPagesWithChannelLoop rest key).returned,
       (fetchAllPagesWithChannelLoop rest key).sent,
       (fetchAllPagesWithChannelLoop rest key).closed,
       (fetchAllPagesWithChannelLoop rest key).calls + 1,
       key :: (fetchAllPagesWithChannelLoop rest key).keys⟩ := by
  simp [fetchAllPagesWithChannelLoop, h]

theorem fetchAllPagesWithChannelLoop_failure_terminal {T : Type} (e : JQError)
    (rest : List (FetchOutcome T)) (key : Option String)
    (h : isInternalServerError e = false) :
    fetchAllPagesWithChannelLoop (.failure e :: rest) key =
      ⟨some (some e), [], false, 1, [key]⟩ := by
  simp [fetchAllPagesWithChannelLoop, h]

theorem fetchAllPagesWithChannelLoop_success_none {T : Type} (p : Page T)
    (rest : List (FetchOutcome T)) (key : Option String)
    (h : p.paginationKey = none) :
    fetchAllPagesWithChannelLoop (.success p :: rest) key =
      ⟨some none, p.items, true, 1, [key]⟩ := by
  simp [fetchAllPagesWithChannelLoop, h]

theorem fetchAllPagesWithChannelLoop_success_some {T : Type} (p : Page T)
    (k : String) (rest : List (FetchOutcome T)) (key : Option String)
    (h : p.paginationKey = some k) :
    fetchAllPagesWithChannelLoop (.success p :: rest) key =
      ⟨(fetchAllPagesWithChannelLoop rest (some k)).returned,
       p.items ++ (fetchAllPagesWithChannelLoop rest (some k)).sent,
       (fetchAllPagesWithChannelLoop rest (some k)).closed,
       (fetchAllPagesWithChannelLoop rest (some k)).calls + 1,
       key :: (fetchAllPagesWithChannelLoop rest (some k)).keys⟩ := by
  simp [fetchAllPagesWithChannelLoop, h]

/-- A bulk run over pages that all succeed, where every page but the last
carries a continuation token and the last carries none: the loop returns
the accumulator extended by the concatenation of all pages' items, with
one fetch call per page, echoing each returned token verbatim. -/
theorem fetchAllPagesLoop_all_success {T : Type} :
    ∀ (front : List (Page T)) (lastPage : Page T) (key : Option String)
      (data : List T),
      (∀ p ∈ front, p.paginationKey.isSome) →
      lastPage.paginationKey = none →
      fetchAllPagesLoop ((front ++ [lastPage]).map FetchOutcome.success) key data =
        ⟨some ⟨some (data ++ ((front ++ [lastPage]).map Page.items).flatten), none⟩,
         front.length + 1, key :: front.map Page.paginationKey⟩
  | [], lastPage, key, data, _, hlast => by
    rw [List.nil_append, List.map_cons, List.map_nil,
      fetchAllPagesLoop_success_none lastPage [] key data hlast]
    simp
  | p :: front, lastPage, key, data, hfront, hlast => by
    obtain ⟨k, hk⟩ := Option.isSome_iff_exists.mp (hfront p (by simp))
    rw [List.cons_append, List.map_cons,
      fetchAllPagesLoop_success_some p k _ key data hk,
      fetchAllPagesLoop_all_success front lastPage (some k) (data ++ p.items)
        (fun q hq => hfront q (by simp [hq])) hlast]
    simp [hk, List.append_assoc]

/-- A streaming run over pages that all succeed, last page tokenless: every
page's items are sent in order, the channel is closed, and the loop
returns a nil error. -/
theorem fetchAllPagesWithChannelLoop_all_success {T : Type} :
    ∀ (front : List (Page T)) (lastPage : Page T) (key : Option String),
      (∀ p ∈ front, p.paginationKey.isSome) →
      lastPage.paginationKey = none →
      fetchAllPagesWithChannelLoop ((front ++ [lastPage]).map FetchOutcome.success)
        key =
        ⟨some none, ((front ++ [lastPage]).map Page.items).flatten, true,
         front.length + 1, key :: front.map Page.paginationKey⟩
  | [], lastPage, key, _, hlast => by
    rw [List.nil_append, List.map_cons, List.map_nil,
      fetchAllPagesWithChannelLoop_success_none lastPage [] key hlast]
    simp
  | p :: front, lastPage, key, hfront, hlast => by
    obtain ⟨k, hk⟩ := Option.isSome_iff_exists.mp (hfront p (by simp))
    rw [List.cons_append, List.map_cons,
      fetchAllPagesWithChannelLoop_success_some p k _ key hk,
      fetchAllPagesWithChannelLoop_all_success front lastPage (some k)
        (fun q hq => hfront q (by simp [hq])) hlast]
    simp [hk]

/-- A bulk run over successful token-carrying pages followed by a terminal
failure: the loop returns `(nil, err)` — the accumulated items are
discarded — after exactly one call past the successful prefix. -/
theorem fetchAllPagesLoop_success_then_terminal {T : Type} :
    ∀ (pre : List (Page T)) (e : JQError) (rest : List (FetchOutcome T))
      (key : Option String) (data : List T),
      isInternalServerError e = false →
      (∀ p ∈ pre, p.paginationKey.isSome) →
      fetchAllPagesLoop (pre.map FetchOutcome.success ++ .failure e :: rest)
        key data =
        ⟨some ⟨none, some e⟩, pre.length + 1, key :: pre.map Page.paginationKey⟩
  | [], e, rest, key, data, he, _ => by
    rw [List.map_nil, List.nil_append,
      fetchAllPagesLoop_failure_terminal e rest key data he]
    rfl
  | p :: pre, e, rest, key, data, he, hpre => by
    obtain ⟨k, hk⟩ := Option.isSome_iff_exists.mp (hpre p (by simp))
    rw [List.map_cons, List.cons_append,
      fetchAllPagesLoop_success_some p k _ key data hk,
      fetchAllPagesLoop_success_then_terminal pre e rest (some k) (data ++ p.items)
        he (fun q hq => hpre q (by simp [hq]))]
    simp [hk]

/-- A streaming run over successful token-carrying pages followed by a
terminal failure: exactly the prefix pages' items were sent (and are never
retracted), the error is returned by the call itself, and — the slip the
code has — `close(ch)` is never executed. -/
theorem fetchAllPagesWithChannelLoop_success_then_terminal {T : Type} :
    ∀ (pre : List (Page T)) (e : JQError) (rest : List (FetchOutcome T))
      (key : Option String),
      isInternalServerError e = false →
      (∀ p ∈ pre, p.paginationKey.isSome) →
      fetchAllPagesWithChannelLoop (pre.map FetchOutcome.success ++ .failure e :: rest)
        key =
        ⟨some (some e), (pre.map Page.items).flatten, false, pre.length + 1,
         key :: pre.map Page.paginationKey⟩
  | [], e, rest, key, he, _ => by
    rw [List.map_nil, List.nil_append,
      fetchAllPagesWithChannelLoop_failure_terminal e rest key he]
    rfl
  | p :: pre, e, rest, key, he, hpre => by
    obtain ⟨k, hk⟩ := Option.isSome_iff_exists.mp (hpre p (by simp))
    rw [List.map_cons, List.cons_append,
      fetchAllPagesWithChannelLoop_success_some p k _ key hk,
      fetchAllPagesWithChannelLoop_success_then_terminal pre e rest (some k)
        he (fun q hq => hpre q (by simp [hq]))]
    simp [hk]

/-- Transient failures repeated `k` times in front of any continuation of
the trace: the result is unchanged, `k` extra fetch calls are made, and
every one of those calls passes the same unchanged key. -/
theorem fetchAllPagesLoop_replicate_transient {T : Type} (e : JQError)
    (he : isInternalServerError e = true) :
    ∀ (k : Nat) (trace : List (FetchOutcome T)) (key : Option String)
      (data : List T),
      fetchAllPagesLoop (List.replicate k (.failure e) ++ trace) key data =
        ⟨(fetchAllPagesLoop trace key data).result,
         k + (fetchAllPagesLoop trace key data).calls,
         List.replicate k key ++ (fetchAllPagesLoop trace key data).keys⟩
  | 0, trace, key, data => by simp
  | k + 1, trace, key, data => by
    rw [List.replicate_succ, List.cons_append,
      fetchAllPagesLoop_failure_transient e _ key data he,
      fetchAllPagesLoop_replicate_transient e he k trace key data]
    simp [List.replicate_succ, BulkRun.mk.injEq]
    omega

/-- Key threading of the bulk loop: whenever a fetch call is followed by
another one, the later call's key is the token returned verbatim by the
earlier call when it succeeded, and the unchanged key when the earlier
call failed transiently. -/
theorem fetchAllPagesLoop_keys_threading {T : Type} :
    ∀ (tr : List (FetchOutcome T)) (key : Option String) (data : List T)
      (i : Nat),
      i + 1 < (fetchAllPagesLoop tr key data).keys.length →
      (∃ p, tr[i]? = some (.success p) ∧
        (fetchAllPagesLoop tr key data).keys[i + 1]? = some p.paginationKey) ∨
      (∃ e, tr[i]? = some (.failure e) ∧ isInternalServerError e = true ∧
        (fetchAllPagesLoop tr key data).keys[i + 1]? =
          (fetchAllPagesLoop tr key data).keys[i]?)
  | [], key, data, i, h => by simp [fetchAllPagesLoop] at h
  | .failure e :: rest, key, data, i, h => by
    by_cases he : isInternalServerError e
    · rw [fetchAllPagesLoop_failure_transient e rest key data he] at h ⊢
      cases i with
      | zero =>
        refine Or.inr ⟨e, by simp, he, ?_⟩
        have hne : rest ≠ [] := by
          intro hnil
          subst hnil
          simp [fetchAllPagesLoop] at h
        have h0 := fetchAllPagesLoop_keys_zero rest key data
        rw [if_neg (by simpa using hne)] at h0
        simpa using h0
      | succ j =>
        have hj : j + 1 < (fetchAllPagesLoop rest key data).keys.length := by
          simpa using h
        have ih := fetchAllPagesLoop_keys_threading rest key data j hj
        simpa using ih
    · rw [fetchAllPagesLoop_failure_terminal e rest key data
        (Bool.not_eq_true _ ▸ he)] at h
      simp at h
  | .success p :: rest, key, data, i, h => by
    cases hp : p.paginationKey with
    | none =>
      rw [fetchAllPagesLoop_success_none p rest key data hp] at h
      simp at h
    | some k =>
      rw [fetchAllPagesLoop_success_some p k rest key data hp] at h ⊢
      cases i with
      | zero =>
        refine Or.inl ⟨p, by simp, ?_⟩
        have hne : rest ≠ [] := by
          intro hnil
          subst hnil
          simp [fetchAllPagesLoop] at h
        have h0 := fetchAllPagesLoop_keys_zero rest (some k) (data ++ p.items)
        rw [if_neg (by simpa using hne)] at h0
        rw [hp]
        simpa using h0
      | succ j =>
        have hj : j + 1 <
            (fetchAllPagesLoop rest (some k) (data ++ p.items)).keys.length := by
          simpa using h
        have ih := fetchAllPagesLoop_keys_threading rest (some k)
          (data ++ p.items) j hj
        simpa using ih

/-- The bulk loop returns a success pair exactly when its last fetch call
consumed a success outcome carrying no continuation token. -/
theorem fetchAllPagesLoop_success_iff {T : Type} :
    ∀ (tr : List (FetchOutcome T)) (key : Option String) (data : List T),
      (∃ d, (fetchAllPagesLoop tr key data).result = some ⟨some d, none⟩) ↔
      (∃ p, tr[(fetchAllPagesLoop tr key data).calls - 1]? =
          some (.success p) ∧ p.paginationKey = none)
  | [], key, data => by simp [fetchAllPagesLoop]
  | .failure e :: rest, key, data => by
    by_cases he : isInternalServerError e
    · rw [fetchAllPagesLoop_failure_transient e rest key data he]
      rcases hrest : rest with _ | ⟨o, rest2⟩
      · simp [fetchAllPagesLoop]
      · rw [← hrest]
        have hpos : (fetchAllPagesLoop rest key data).calls ≠ 0 := by
          rw [Ne, fetchAllPagesLoop_calls_eq_zero]
          simp [hrest]
        obtain ⟨m, hm⟩ := Nat.exists_eq_succ_of_ne_zero hpos
        have ih := fetchAllPagesLoop_success_iff rest key data
        rw [hm] at ih ⊢
        simpa using ih
    · rw [fetchAllPagesLoop_failure_terminal e rest key data
        (Bool.not_eq_true _ ▸ he)]
      simp
  | .success p :: rest, key, data => by
    cases hp : p.paginationKey with
    | none =>
      rw [fetchAllPagesLoop_success_none p rest key data hp]
      simp [hp]
    | some k =>
      rw [fetchAllPagesLoop_success_some p k rest key data hp]
      rcases hrest : rest with _ | ⟨o, rest2⟩
      · simp [fetchAllPagesLoop, hp]
      · rw [← hrest]
        have hpos : (fetchAllPagesLoop rest (some k) (data ++ p.items)).calls ≠ 0 := by
          rw [Ne, fetchAllPagesLoop_calls_eq_zero]
          simp [hrest]
        obtain ⟨m, hm⟩ := Nat.exists_eq_succ_of_ne_zero hpos
        have ih := fetchAllPagesLoop_success_iff rest (some k) (data ++ p.items)
        rw [hm] at ih ⊢
        simpa using ih

/-- Whenever the bulk loop returns, the returned pair is either a non-nil
slice with a nil error or a nil slice with a non-nil error — never both
populated, never both empty. -/
theorem fetchAllPagesLoop_result_wf {T : Type} :
    ∀ (tr : List (FetchOutcome T)) (key : Option String) (data : List T)
      (gr : GoReturn T),
      (fetchAllPagesLoop tr key data).result = some gr →
      (∃ l, gr.data = some l ∧ gr.err = none) ∨
      (gr.data = none ∧ ∃ e, gr.err = some e)
  | [], key, data, gr, h => by simp [fetchAllPagesLoop] at h
  | .failure e :: rest, key, data, gr, h => by
    by_cases he : isInternalServerError e
    · rw [fetchAllPagesLoop_failure_transient e rest key data he] at h
      exact fetchAllPagesLoop_result_wf rest key data gr h
    · rw [fetchAllPagesLoop_failure_terminal e rest key data
        (Bool.not_eq_true _ ▸ he)] at h
      simp at h
      subst h
      exact Or.inr ⟨rfl, e, rfl⟩
  | .success p :: rest, key, data, gr, h => by
    cases hp : p.paginationKey with
    | none =>
      rw [fetchAllPagesLoop_success_none p rest key data hp] at h
      simp at h
      subst h
      exact Or.inl ⟨data ++ p.items, rfl, rfl⟩
    | some k =>
      rw [fetchAllPagesLoop_success_some p k rest key data hp] at h
      exact fetchAllPagesLoop_result_wf rest (some k) (data ++ p.items) gr h

/-- A fetch issued at or after the deadline: the loop aborts at once with
the context's deadline-exceeded error, making exactly that one (failing)
fetch call, sending no item and starting no backoff sleep. -/
theorem timedFetchAllPagesLoop_expired {T : Type} (ri D : Nat)
    (steps : List (TimedStep T)) (key : Option String) (data : List T)
    (t : Nat) (h : D ≤ t) :
    timedFetchAllPagesLoop ri D steps key data t =
      ⟨some ⟨none, some .deadlineExceeded⟩, [.fetchCall t key], t⟩ := by
  cases steps <;> simp [timedFetchAllPagesLoop, h]

/-- Every backoff sleep of a timed run starts strictly before the deadline:
a retry sleep is triggered only by an `InternalServerError` outcome, which
the context-carrying fetch can deliver only by completing before the
deadline. -/
theorem timedFetchAllPagesLoop_sleep_before_deadline {T : Type} (ri D : Nat) :
    ∀ (steps : List (TimedStep T)) (key : Option String) (data : List T)
      (t s : Nat),
      Event.sleepCall s ∈ (timedFetchAllPagesLoop ri D steps key data t).events →
      s < D
  | [], key, data, t, s, hmem => by
    by_cases hd : D ≤ t <;> simp [timedFetchAllPagesLoop, hd] at hmem
  | ⟨d, out⟩ :: rest, key, data, t, s, hmem => by
    by_cases hd : D ≤ t
    · simp [timedFetchAllPagesLoop, hd] at hmem
    · by_cases hd2 : D ≤ t + d
      · simp [timedFetchAllPagesLoop, hd, hd2] at hmem
      · cases out with
        | failure e =>
          by_cases he : isInternalServerError e
          · rw [show timedFetchAllPagesLoop ri D (⟨d, .failure e⟩ :: rest) key data t =
                ⟨(timedFetchAllPagesLoop ri D rest key data (t + d + ri)).result,
                 .fetchCall t key :: .sleepCall (t + d) ::
                   (timedFetchAllPagesLoop ri D rest key data (t + d + ri)).events,
                 (timedFetchAllPagesLoop ri D rest key data (t + d + ri)).finish⟩
              from by simp [timedFetchAllPagesLoop, hd, hd2, he]] at hmem
            simp at hmem
            rcases hmem with h1 | h2
            · omega
            · exact timedFetchAllPagesLoop_sleep_before_deadline ri D rest key
                data (t + d + ri) s h2
          · simp [timedFetchAllPagesLoop, hd, hd2, he] at hmem
        | success p =>
          cases hp : p.paginationKey with
          | none => simp [timedFetchAllPagesLoop, hd, hd2, hp] at hmem
          | some k =>
            rw [show timedFetchAllPagesLoop ri D (⟨d, .success p⟩ :: rest) key data t =
                ⟨(timedFetchAllPagesLoop ri D rest (some k) (data ++ p.items)
                    (t + d)).result,
                 .fetchCall t key ::
                   (timedFetchAllPagesLoop ri D rest (some k) (data ++ p.items)
                     (t + d)).events,
                 (timedFetchAllPagesLoop ri D rest (some k) (data ++ p.items)
                   (t + d)).finish⟩
              from by simp [timedFetchAllPagesLoop, hd, hd2, hp]] at hmem
            simp at hmem
            exact timedFetchAllPagesLoop_sleep_before_deadline ri D rest (some k)
              (data ++ p.items) (t + d) s hmem

/-- The first fetch call of the streaming loop is made with the key the
loop was entered with. -/
theorem fetchAllPagesWithChannelLoop_keys_zero {T : Type}
    (tr : List (FetchOutcome T)) (key : Option String) :
    (fetchAllPagesWithChannelLoop tr key).keys[0]? =
      if tr.isEmpty then none else some key := by
  match tr with
  | [] => simp [fetchAllPagesWithChannelLoop]
  | .failure e :: rest =>
    by_cases he : isInternalServerError e
    · rw [fetchAllPagesWithChannelLoop_failure_transient e rest key he]
      simp
    · rw [fetchAllPagesWithChannelLoop_failure_terminal e rest key
        (Bool.not_eq_true _ ▸ he)]
      simp
  | .success p :: rest =>
    cases hp : p.paginationKey with
    | none =>
      rw [fetchAllPagesWithChannelLoop_success_none p rest key hp]
      simp
    | some k =>
      rw [fetchAllPagesWithChannelLoop_success_some p k rest key hp]
      simp

/-- The streaming loop makes zero fetch calls exactly on the empty trace. -/
theorem fetchAllPagesWithChannelLoop_calls_eq_zero {T : Type}
    (tr : List (FetchOutcome T)) (key : Option String) :
    (fetchAllPagesWithChannelLoop tr key).calls = 0 ↔ tr = [] := by
  match tr with
  | [] => simp [fetchAllPagesWithChannelLoop]
  | .failure e :: rest =>
    by_cases he : isInternalServerError e
    · rw [fetchAllPagesWithChannelLoop_failure_transient e rest key he]
      simp
    · rw [fetchAllPagesWithChannelLoop_failure_terminal e rest key
        (Bool.not_eq_true _ ▸ he)]
      simp
  | .success p :: rest =>
    cases hp : p.paginationKey with
    | none =>
      rw [fetchAllPagesWithChannelLoop_success_none p rest key hp]
      simp
    | some k =>
      rw [fetchAllPagesWithChannelLoop_success_some p k rest key hp]
      simp

/-- Key threading of the streaming loop: whenever a fetch call is followed
by another one, the later call's key is the token returned verbatim by the
earlier call when it succeeded, and the unchanged key when the earlier
call failed transiently. -/
theorem fetchAllPagesWithChannelLoop_keys_threading {T : Type} :
    ∀ (tr : List (FetchOutcome T)) (key : Option String) (i : Nat),
      i + 1 < (fetchAllPagesWithChannelLoop tr key).keys.length →
      (∃ p, tr[i]? = some (.success p) ∧
        (fetchAllPagesWithChannelLoop tr key).keys[i + 1]? =
          some p.paginationKey) ∨
      (∃ e, tr[i]? = some (.failure e) ∧ isInternalServerError e = true ∧
        (fetchAllPagesWithChannelLoop tr key).keys[i + 1]? =
          (fetchAllPagesWithChannelLoop tr key).keys[i]?)
  | [], key, i, h => by simp [fetchAllPagesWithChannelLoop] at h
  | .failure e :: rest, key, i, h => by
    by_cases he : isInternalServerError e
    · rw [fetchAllPagesWithChannelLoop_failure_transient e rest key he] at h ⊢
      cases i with
      | zero =>
        refine Or.inr ⟨e, by simp, he, ?_⟩
        have hne : rest ≠ [] := by
          intro hnil
          subst hnil
          simp [fetchAllPagesWithChannelLoop] at h
        have h0 := fetchAllPagesWithChannelLoop_keys_zero rest key
        rw [if_neg (by simpa using hne)] at h0
        simpa using h0
      | succ j =>
        have hj : j + 1 < (fetchAllPagesWithChannelLoop rest key).keys.length := by
          simpa using h
        have ih := fetchAllPagesWithChannelLoop_keys_threading rest key j hj
        simpa using ih
    · rw [fetchAllPagesWithChannelLoop_failure_terminal e rest key
        (Bool.not_eq_true _ ▸ he)] at h
      simp at h
  | .success p :: rest, key, i, h => by
    cases hp : p.paginationKey with
    | none =>
      rw [fetchAllPagesWithChannelLoop_success_none p rest key hp] at h
      simp at h
    | some k =>
      rw [fetchAllPagesWithChannelLoop_success_some p k rest key hp] at h ⊢
      cases i with
      | zero =>
        refine Or.inl ⟨p, by simp, ?_⟩
        have hne : rest ≠ [] := by
          intro hnil
          subst hnil
          simp [fetchAllPagesWithChannelLoop] at h
        have h0 := fetchAllPagesWithChannelLoop_keys_zero rest (some k)
        rw [if_neg (by simpa using hne)] at h0
        rw [hp]
        simpa using h0
      | succ j =>
        have hj : j + 1 <
            (fetchAllPagesWithChannelLoop rest (some k)).keys.length := by
          simpa using h
        have ih := fetchAllPagesWithChannelLoop_keys_threading rest (some k) j hj
        simpa using ih

/-- The streaming loop returns a nil error exactly when its last fetch
call consumed a success outcome carrying no continuation token. -/
theorem fetchAllPagesWithChannelLoop_success_iff {T : Type} :
    ∀ (tr : List (FetchOutcome T)) (key : Option String),
      (fetchAllPagesWithChannelLoop tr key).returned = some none ↔
      (∃ p, tr[(fetchAllPagesWithChannelLoop tr key).calls - 1]? =
          some (.success p) ∧ p.paginationKey = none)
  | [], key => by simp [fetchAllPagesWithChannelLoop]
  | .failure e :: rest, key => by
    by_cases he : isInternalServerError e
    · rw [fetchAllPagesWithChannelLoop_failure_transient e rest key he]
      rcases hrest : rest with _ | ⟨o, rest2⟩
      · simp [fetchAllPagesWithChannelLoop]
      · rw [← hrest]
        have hpos : (fetchAllPagesWithChannelLoop rest key).calls ≠ 0 := by
          rw [Ne, fetchAllPagesWithChannelLoop_calls_eq_zero]
          simp [hrest]
        obtain ⟨m, hm⟩ := Nat.exists_eq_succ_of_ne_zero hpos
        have ih := fetchAllPagesWithChannelLoop_success_iff rest key
        rw [hm] at ih ⊢
        simpa using ih
    · rw [fetchAllPagesWithChannelLoop_failure_terminal e rest key
        (Bool.not_eq_true _ ▸ he)]
      simp
  | .success p :: rest, key => by
    cases hp : p.paginationKey with
    | none =>
      rw [fetchAllPagesWithChannelLoop_success_none p rest key hp]
      simp [hp]
    | some k =>
      rw [fetchAllPagesWithChannelLoop_success_some p k rest key hp]
      rcases hrest : rest with _ | ⟨o, rest2⟩
      · simp [fetchAllPagesWithChannelLoop, hp]
      · rw [← hrest]
        have hpos : (fetchAllPagesWithChannelLoop rest (some k)).calls ≠ 0 := by
          rw [Ne, fetchAllPagesWithChannelLoop_calls_eq_zero]
          simp [hrest]
        obtain ⟨m, hm⟩ := Nat.exists_eq_succ_of_ne_zero hpos
        have ih := fetchAllPagesWithChannelLoop_success_iff rest (some k)
        rw [hm] at ih ⊢
        simpa using ih

/-- A streaming fetch issued at or after the deadline: the loop aborts at
once with the terminal deadline-exceeded error after exactly that one
failing fetch call, sending no item, starting no backoff sleep, and — as
on every terminal path — leaving the channel unclosed. -/
theorem timedFetchAllPagesWithChannelLoop_expired {T : Type} (ri D : Nat)
    (steps : List (TimedStep T)) (key : Option String) (t : Nat)
    (h : D ≤ t) :
    timedFetchAllPagesWithChannelLoop ri D steps key t =
      ⟨some (some .deadlineExceeded), [], false, [.fetchCall t key], t⟩ := by
  cases steps <;> simp [timedFetchAllPagesWithChannelLoop, h]

/-- Every backoff sleep of a timed streaming run starts strictly before
the deadline. -/
theorem timedFetchAllPagesWithChannelLoop_sleep_before_deadline {T : Type}
    (ri D : Nat) :
    ∀ (steps : List (TimedStep T)) (key : Option String) (t s : Nat),
      Event.sleepCall s ∈
        (timedFetchAllPagesWithChannelLoop ri D steps key t).events →
      s < D
  | [], key, t, s, hmem => by
    by_cases hd : D ≤ t <;>
      simp [timedFetchAllPagesWithChannelLoop, hd] at hmem
  | ⟨d, out⟩ :: rest, key, t, s, hmem => by
    by_cases hd : D ≤ t
    · simp [timedFetchAllPagesWithChannelLoop, hd] at hmem
    · by_cases hd2 : D ≤ t + d
      · simp [timedFetchAllPagesWithChannelLoop, hd, hd2] at hmem
      · cases out with
        | failure e =>
          by_cases he : isInternalServerError e
          · rw [show timedFetchAllPagesWithChannelLoop ri D
                  (⟨d, .failure e⟩ :: rest) key t =
                ⟨(timedFetchAllPagesWithChannelLoop ri D rest key
                    (t + d + ri)).returned,
                 (timedFetchAllPagesWithChannelLoop ri D rest key
                    (t + d + ri)).sent,
                 (timedFetchAllPagesWithChannelLoop ri D rest key
                    (t + d + ri)).closed,
                 .fetchCall t key :: .sleepCall (t + d) ::
                   (timedFetchAllPagesWithChannelLoop ri D rest key
                     (t + d + ri)).events,
                 (timedFetchAllPagesWithChannelLoop ri D rest key
                   (t + d + ri)).finish⟩
              from by simp [timedFetchAllPagesWithChannelLoop, hd, hd2, he]]
              at hmem
            simp at hmem
            rcases hmem with h1 | h2
            · omega
            · exact timedFetchAllPagesWithChannelLoop_sleep_before_deadline
                ri D rest key (t + d + ri) s h2
          · simp [timedFetchAllPagesWithChannelLoop, hd, hd2, he] at hmem
        | success p =>
          cases hp : p.paginationKey with
          | none =>
            simp [timedFetchAllPagesWithChannelLoop, hd, hd2, hp] at hmem
          | some k =>
            rw [show timedFetchAllPagesWithChannelLoop ri D
                  (⟨d, .success p⟩ :: rest) key t =
                ⟨(timedFetchAllPagesWithChannelLoop ri D rest (some k)
                    (t + d)).returned,
                 p.items ++ (timedFetchAllPagesWithChannelLoop ri D rest
                   (some k) (t + d)).sent,
                 (timedFetchAllPagesWithChannelLoop ri D rest (some k)
                   (t + d)).closed,
                 .fetchCall t key ::
                   (timedFetchAllPagesWithChannelLoop ri D rest (some k)
                     (t + d)).events,
                 (timedFetchAllPagesWithChannelLoop ri D rest (some k)
                   (t + d)).finish⟩
              from by simp [timedFetchAllPagesWithChannelLoop, hd, hd2, hp]]
              at hmem
            simp at hmem
            exact timedFetchAllPagesWithChannelLoop_sleep_before_deadline
              ri D rest (some k) (t + d) s hmem

/-- C1: the claim states the sink channel is closed exactly once after the
loop terminates, success or terminal failure alike.  The code violates it:
in `fetchAllPagesWithChannel` the `close(ch)` sits after the loop's
`break`, so on a terminal failure the function returns the error without
closing the channel.  Evaluated at the failing input — a run whose first
fetch fails terminally with HTTP 400 — the run returns the error having
sent nothing, and the channel is left unclosed (`closed = false`), so a
consumer draining it with `for range ch` (as the repository's README and
tests do) blocks forever. -/
theorem c1_sink_not_closed_on_terminal_failure :
    fetchAllPagesWithChannel
        [FetchOutcome.failure (T := Nat) (.badRequest "bad")] =
      ⟨some (some (.badRequest "bad")), [], false, 1, [none]⟩ := by
  decide

/-- C2: for every page sequence P1..Pn where P1..P(n-1) carry continuation
tokens and Pn carries none, with no fetch failing, the bulk paginator
returns the concatenation of the pages' items in page order then
within-page order, making one fetch call per page; instantiating the last
page to an empty tokenless page gives an empty non-nil result, not an
error. -/
theorem c2_bulk_concatenation (T : Type) (front : List (Page T))
    (lastPage : Page T) (hfront : ∀ p ∈ front, p.paginationKey.isSome)
    (hlast : lastPage.paginationKey = none) :
    (fetchAllPages ((front ++ [lastPage]).map FetchOutcome.success)).result =
      some ⟨some (((front ++ [lastPage]).map Page.items).flatten), none⟩ ∧
    (fetchAllPages ((front ++ [lastPage]).map FetchOutcome.success)).calls =
      front.length + 1 := by
  rw [fetchAllPages,
    fetchAllPagesLoop_all_success front lastPage none [] hfront hlast]
  simp

/-- Witness for C2: the spec's two-page scenario ([A,B] with token "x",
then [C] with none) yields [A,B,C] in 2 calls, and a single empty
tokenless page yields the empty non-nil result. -/
theorem c2_witness :
    (fetchAllPages [FetchOutcome.success (⟨[1, 2], some "x"⟩ : Page Nat),
        FetchOutcome.success ⟨[3], none⟩]).result =
      some ⟨some [1, 2, 3], none⟩ ∧
    (fetchAllPages [FetchOutcome.success (⟨[], none⟩ : Page Nat)]).result =
      some ⟨some [], none⟩ := by
  constructor
  · have h := c2_bulk_concatenation Nat [⟨[1, 2], some "x"⟩] ⟨[3], none⟩
      (by simp) rfl
    simpa using h.1
  · have h := c2_bulk_concatenation Nat [] ⟨[], none⟩ (by simp) rfl
    simpa using h.1

/-- C3: `k` transient failures on a continuation followed by the rest of
the run leave the result unchanged, add exactly `k` fetch calls, and every
one of those retries passes the same unchanged key — which is also the key
of the first call of the continued run, so the token sees exactly `k + 1`
calls. -/
theorem c3_retry_transparency (T : Type) (e : JQError) (k : Nat)
    (tr : List (FetchOutcome T)) (key : Option String) (data : List T)
    (he : isInternalServerError e = true) :
    (fetchAllPagesLoop (List.replicate k (.failure e) ++ tr) key data).result =
      (fetchAllPagesLoop tr key data).result ∧
    (fetchAllPagesLoop (List.replicate k (.failure e) ++ tr) key data).calls =
      k + (fetchAllPagesLoop tr key data).calls ∧
    (fetchAllPagesLoop (List.replicate k (.failure e) ++ tr) key data).keys =
      List.replicate k key ++ (fetchAllPagesLoop tr key data).keys ∧
    (tr ≠ [] → (fetchAllPagesLoop tr key data).keys[0]? = some key) := by
  rw [fetchAllPagesLoop_replicate_transient e he k tr key data]
  refine ⟨rfl, rfl, rfl, fun hne => ?_⟩
  rw [fetchAllPagesLoop_keys_zero, if_neg (by simpa using hne)]

/-- Witness for C3: two HTTP 500 failures before a successful tokenless
page: same result as the one-call run, 3 calls in total, all with the
absent key. -/
theorem c3_witness :
    (fetchAllPagesLoop
        (List.replicate 2 (.failure (.internalServerError "oops")) ++
          [FetchOutcome.success (⟨[7], none⟩ : Page Nat)]) none []).result =
      some ⟨some [7], none⟩ ∧
    (fetchAllPagesLoop
        (List.replicate 2 (.failure (.internalServerError "oops")) ++
          [FetchOutcome.success (⟨[7], none⟩ : Page Nat)]) none []).calls = 3 ∧
    (fetchAllPagesLoop
        (List.replicate 2 (.failure (.internalServerError "oops")) ++
          [FetchOutcome.success (⟨[7], none⟩ : Page Nat)]) none []).keys =
      [none, none, none] := by
  have h := c3_retry_transparency Nat (.internalServerError "oops") 2
    [FetchOutcome.success ⟨[7], none⟩] none [] rfl
  refine ⟨?_, ?_, ?_⟩
  · rw [h.1]; decide
  · rw [h.2.1]; decide
  · rw [h.2.2.1]; decide

/-- C4: a terminal failure after any number of successful token-carrying
pages makes the bulk call return `(nil, err)` — the items accumulated so
far are discarded — after exactly one call past the successful prefix,
so no fetch call is made after the failing one. -/
theorem c4_terminal_abort (T : Type) (pre : List (Page T)) (e : JQError)
    (rest : List (FetchOutcome T)) (he : isInternalServerError e = false)
    (hpre : ∀ p ∈ pre, p.paginationKey.isSome) :
    (fetchAllPages (pre.map FetchOutcome.success ++ .failure e :: rest)).result =
      some ⟨none, some e⟩ ∧
    (fetchAllPages (pre.map FetchOutcome.success ++ .failure e :: rest)).calls =
      pre.length + 1 := by
  rw [fetchAllPages,
    fetchAllPagesLoop_success_then_terminal pre e rest none [] he hpre]
  exact ⟨rfl, rfl⟩

/-- Witness for C4: one successful page then an HTTP 401: the run returns
the unauthorized error with a nil slice in 2 calls, never reaching the
later page. -/
theorem c4_witness :
    (fetchAllPages (List.map FetchOutcome.success [⟨[1], some "x"⟩] ++
        .failure (.unauthorized "no") ::
          [FetchOutcome.success (⟨[9], none⟩ : Page Nat)])).result =
      some ⟨none, some (.unauthorized "no")⟩ ∧
    (fetchAllPages (List.map FetchOutcome.success [⟨[1], some "x"⟩] ++
        .failure (.unauthorized "no") ::
          [FetchOutcome.success (⟨[9], none⟩ : Page Nat)])).calls = 2 := by
  have h := c4_terminal_abort Nat [⟨[1], some "x"⟩] (.unauthorized "no")
    [FetchOutcome.success ⟨[9], none⟩] rfl (by simp)
  exact ⟨h.1, h.2⟩

/-- C5: the paginator retries exactly the errors classified as HTTP 500
internal server errors: `handleErrorResponse` yields a transient error iff
the status code is 500, transport and decoding failures are not transient,
and a failing loop step continues (same state) iff its error is transient,
aborting with the error otherwise. -/
theorem c5_transient_iff_500 :
    (∀ (s : Nat) (m : String),
      isInternalServerError (handleErrorResponse s m) = true ↔ s = 500) ∧
    (∀ m, isInternalServerError (JQError.transport m) = false) ∧
    (∀ m, isInternalServerError (JQError.decodeFailure m) = false) ∧
    (∀ (T : Type) (e : JQError) (rest : List (FetchOutcome T))
      (key : Option String) (data : List T),
      (isInternalServerError e = true →
        (fetchAllPagesLoop (.failure e :: rest) key data).result =
          (fetchAllPagesLoop rest key data).result) ∧
      (isInternalServerError e = false →
        fetchAllPagesLoop (.failure e :: rest) key data =
          ⟨some ⟨none, some e⟩, 1, [key]⟩)) := by
  refine ⟨?_, fun m => rfl, fun m => rfl, ?_⟩
  · intro s m
    unfold handleErrorResponse
    split_ifs with h1 h2 h3 h4 h5 <;> simp [isInternalServerError] <;> omega
  · intro T e rest key data
    constructor
    · intro he
      rw [fetchAllPagesLoop_failure_transient e rest key data he]
    · intro he
      exact fetchAllPagesLoop_failure_terminal e rest key data he

/-- Witness for C5: status 500 is transient, status 403 is not, and a
terminal bad-request failure aborts the loop at once. -/
theorem c5_witness :
    isInternalServerError (handleErrorResponse 500 "boom") = true ∧
    isInternalServerError (handleErrorResponse 403 "no") = false ∧
    fetchAllPagesLoop [.failure (.badRequest "b")] none ([] : List Nat) =
      ⟨some ⟨none, some (.badRequest "b")⟩, 1, [none]⟩ := by
  refine ⟨(c5_transient_iff_500.1 500 "boom").mpr rfl, ?_, ?_⟩
  · have h := c5_transient_iff_500.1 403 "no"
    simp at h
    simpa using h
  · exact (c5_transient_iff_500.2.2.2 Nat (.badRequest "b") [] none []).2 rfl

/-- C6 counterexample to the claim as stated: run with retry interval 10
and deadline 5, where the first fetch takes 1 time unit and fails with
HTTP 500.  The backoff sleep starts at time 1 and runs to time 11 — across
the deadline, so the deadline is not attached to the sleep — and then the
loop starts another fetch call at time 11 ≥ 5, after expiry (it is that
call's failure that aborts the run), contradicting "it never starts
another retry sleep or fetch after expiry". -/
theorem c6_counterexample :
    (timedFetchAllPages (T := Nat) 10 5
        [⟨1, .failure (.internalServerError "e")⟩]).events =
      [.fetchCall 0 none, .sleepCall 1, .fetchCall 11 none] ∧
    (timedFetchAllPages (T := Nat) 10 5
        [⟨1, .failure (.internalServerError "e")⟩]).result =
      some ⟨none, some .deadlineExceeded⟩ ∧
    (5 : Nat) ≤ 11 := by
  decide

/-- C6 (amended), for both the bulk and the streaming pagination loop: a
single deadline fixed when the run starts is attached via the request
context to every page fetch, and once it has expired the loop aborts with
a deadline-exceeded failure at its very next fetch attempt — exactly one
further (immediately failing) fetch call, no items, no further backoff
sleep, and in streaming mode the channel is left unclosed as on every
terminal path; every backoff sleep starts strictly before the deadline,
but a sleep is not itself bounded by the deadline and may run past it
(see the counterexample). -/
theorem c6_deadline_policy (T : Type) (ri D : Nat)
    (steps : List (TimedStep T)) (key : Option String) (data : List T)
    (t s : Nat) :
    (D ≤ t →
      timedFetchAllPagesLoop ri D steps key data t =
        ⟨some ⟨none, some .deadlineExceeded⟩, [.fetchCall t key], t⟩) ∧
    (Event.sleepCall s ∈ (timedFetchAllPagesLoop ri D steps key data t).events →
      s < D) ∧
    (D ≤ t →
      timedFetchAllPagesWithChannelLoop ri D steps key t =
        ⟨some (some .deadlineExceeded), [], false, [.fetchCall t key], t⟩) ∧
    (Event.sleepCall s ∈
        (timedFetchAllPagesWithChannelLoop ri D steps key t).events →
      s < D) :=
  ⟨timedFetchAllPagesLoop_expired ri D steps key data t,
   timedFetchAllPagesLoop_sleep_before_deadline ri D steps key data t s,
   timedFetchAllPagesWithChannelLoop_expired ri D steps key t,
   timedFetchAllPagesWithChannelLoop_sleep_before_deadline ri D steps key t s⟩

/-- Witness for C6: entering either loop at time 7 with deadline 5 aborts
at once with the deadline-exceeded error after a single failing fetch
call, the streaming loop leaving the channel unclosed. -/
theorem c6_witness :
    timedFetchAllPagesLoop 10 5 ([] : List (TimedStep Nat)) none [] 7 =
      ⟨some ⟨none, some .deadlineExceeded⟩, [.fetchCall 7 none], 7⟩ ∧
    timedFetchAllPagesWithChannelLoop 10 5 ([] : List (TimedStep Nat)) none 7 =
      ⟨some (some .deadlineExceeded), [], false, [.fetchCall 7 none], 7⟩ :=
  ⟨(c6_deadline_policy Nat 10 5 [] none [] 7 0).1 (by decide),
   (c6_deadline_policy Nat 10 5 [] none [] 7 0).2.2.1 (by decide)⟩

/-- C7: a successful streaming run over pages P1..Pn (tokens on all but
the last) sends exactly the pages' items in page order then within-page
order, closes the channel, and returns a nil error, with one fetch call
per page. -/
theorem c7_streaming_order_and_closure (T : Type) (front : List (Page T))
    (lastPage : Page T) (hfront : ∀ p ∈ front, p.paginationKey.isSome)
    (hlast : lastPage.paginationKey = none) :
    (fetchAllPagesWithChannel
        ((front ++ [lastPage]).map FetchOutcome.success)).sent =
      ((front ++ [lastPage]).map Page.items).flatten ∧
    (fetchAllPagesWithChannel
        ((front ++ [lastPage]).map FetchOutcome.success)).closed = true ∧
    (fetchAllPagesWithChannel
        ((front ++ [lastPage]).map FetchOutcome.success)).returned = some none ∧
    (fetchAllPagesWithChannel
        ((front ++ [lastPage]).map FetchOutcome.success)).calls =
      front.length + 1 := by
  rw [fetchAllPagesWithChannel,
    fetchAllPagesWithChannelLoop_all_success front lastPage none hfront hlast]
  exact ⟨rfl, rfl, rfl, rfl⟩

/-- Witness for C7: streaming the spec's two-page scenario sends [1,2,3]
in order, closes the channel and returns nil. -/
theorem c7_witness :
    (fetchAllPagesWithChannel
        [FetchOutcome.success (⟨[1, 2], some "x"⟩ : Page Nat),
         FetchOutcome.success ⟨[3], none⟩]).sent = [1, 2, 3] ∧
    (fetchAllPagesWithChannel
        [FetchOutcome.success (⟨[1, 2], some "x"⟩ : Page Nat),
         FetchOutcome.success ⟨[3], none⟩]).closed = true ∧
    (fetchAllPagesWithChannel
        [FetchOutcome.success (⟨[1, 2], some "x"⟩ : Page Nat),
         FetchOutcome.success ⟨[3], none⟩]).returned = some none := by
  have h := c7_streaming_order_and_closure Nat [⟨[1, 2], some "x"⟩] ⟨[3], none⟩
    (by simp) rfl
  exact ⟨by simpa using h.1, by simpa using h.2.1, by simpa using h.2.2.1⟩

/-- C8: a streaming run in which a terminal failure follows successful
token-carrying pages has sent exactly those earlier pages' items (nothing
is retracted), and the terminal failure is the value returned by the call
itself — an error is never sent through the item channel, whose element
type carries no errors — with no fetch call after the failing one. -/
theorem c8_streaming_partial_then_error (T : Type) (pre : List (Page T))
    (e : JQError) (rest : List (FetchOutcome T))
    (he : isInternalServerError e = false)
    (hpre : ∀ p ∈ pre, p.paginationKey.isSome) :
    (fetchAllPagesWithChannel
        (pre.map FetchOutcome.success ++ .failure e :: rest)).sent =
      (pre.map Page.items).flatten ∧
    (fetchAllPagesWithChannel
        (pre.map FetchOutcome.success ++ .failure e :: rest)).returned =
      some (some e) ∧
    (fetchAllPagesWithChannel
        (pre.map FetchOutcome.success ++ .failure e :: rest)).calls =
      pre.length + 1 := by
  rw [fetchAllPagesWithChannel,
    fetchAllPagesWithChannelLoop_success_then_terminal pre e rest none he hpre]
  exact ⟨rfl, rfl, rfl⟩

/-- Witness for C8: page 1 succeeds, page 2 of 3 fails with HTTP 403: the
consumer has received exactly page 1's items and the producer returns the
forbidden error after 2 calls. -/
theorem c8_witness :
    (fetchAllPagesWithChannel (List.map FetchOutcome.success [⟨[1], some "a"⟩] ++
        .failure (.forbidden "f") ::
          [FetchOutcome.success (⟨[9], none⟩ : Page Nat)])).sent = [1] ∧
    (fetchAllPagesWithChannel (List.map FetchOutcome.success [⟨[1], some "a"⟩] ++
        .failure (.forbidden "f") ::
          [FetchOutcome.success (⟨[9], none⟩ : Page Nat)])).returned =
      some (some (.forbidden "f")) ∧
    (fetchAllPagesWithChannel (List.map FetchOutcome.success [⟨[1], some "a"⟩] ++
        .failure (.forbidden "f") ::
          [FetchOutcome.success (⟨[9], none⟩ : Page Nat)])).calls = 2 := by
  have h := c8_streaming_partial_then_error Nat [⟨[1], some "a"⟩]
    (.forbidden "f") [FetchOutcome.success ⟨[9], none⟩] rfl (by simp)
  exact ⟨by simpa using h.1, h.2.1, h.2.2⟩

/-- C9: in every run of either pagination loop — bulk and streaming, the
two duplicated loops of src/client.go — the first fetch call passes the
absent key; any call following another passes verbatim the token returned
by the previous call when it succeeded and the unchanged key when it
failed transiently; and the run terminates successfully exactly when its
last fetch call consumed a success outcome with an absent continuation
token. -/
theorem c9_token_threading (T : Type) (tr : List (FetchOutcome T)) :
    (tr ≠ [] → (fetchAllPages tr).keys[0]? = some none) ∧
    (∀ i, i + 1 < (fetchAllPages tr).keys.length →
      (∃ p, tr[i]? = some (.success p) ∧
        (fetchAllPages tr).keys[i + 1]? = some p.paginationKey) ∨
      (∃ e, tr[i]? = some (.failure e) ∧ isInternalServerError e = true ∧
        (fetchAllPages tr).keys[i + 1]? = (fetchAllPages tr).keys[i]?)) ∧
    ((∃ d, (fetchAllPages tr).result = some ⟨some d, none⟩) ↔
      (∃ p, tr[(fetchAllPages tr).calls - 1]? = some (.success p) ∧
        p.paginationKey = none)) ∧
    (tr ≠ [] → (fetchAllPagesWithChannel tr).keys[0]? = some none) ∧
    (∀ i, i + 1 < (fetchAllPagesWithChannel tr).keys.length →
      (∃ p, tr[i]? = some (.success p) ∧
        (fetchAllPagesWithChannel tr).keys[i + 1]? = some p.paginationKey) ∨
      (∃ e, tr[i]? = some (.failure e) ∧ isInternalServerError e = true ∧
        (fetchAllPagesWithChannel tr).keys[i + 1]? =
          (fetchAllPagesWithChannel tr).keys[i]?)) ∧
    ((fetchAllPagesWithChannel tr).returned = some none ↔
      (∃ p, tr[(fetchAllPagesWithChannel tr).calls - 1]? =
          some (.success p) ∧ p.paginationKey = none)) := by
  refine ⟨fun hne => ?_, fun i hi => ?_, ?_, fun hne => ?_, fun i hi => ?_, ?_⟩
  · rw [fetchAllPages, fetchAllPagesLoop_keys_zero,
      if_neg (by simpa using hne)]
  · exact fetchAllPagesLoop_keys_threading tr none [] i hi
  · exact fetchAllPagesLoop_success_iff tr none []
  · rw [fetchAllPagesWithChannel, fetchAllPagesWithChannelLoop_keys_zero,
      if_neg (by simpa using hne)]
  · exact fetchAllPagesWithChannelLoop_keys_threading tr none i hi
  · exact fetchAllPagesWithChannelLoop_success_iff tr none

/-- Witness for C9 at the spec's two-page scenario, in both loops: the
first call passes the absent key and the second call echoes page 1's
token. -/
theorem c9_witness :
    (fetchAllPages [FetchOutcome.success (⟨[1], some "x"⟩ : Page Nat),
        FetchOutcome.success ⟨[2], none⟩]).keys[0]? = some none ∧
    ((∃ p, [FetchOutcome.success (⟨[1], some "x"⟩ : Page Nat),
        FetchOutcome.success ⟨[2], none⟩][0]? = some (.success p) ∧
      (fetchAllPages [FetchOutcome.success (⟨[1], some "x"⟩ : Page Nat),
        FetchOutcome.success ⟨[2], none⟩]).keys[0 + 1]? =
        some p.paginationKey) ∨
     (∃ e, [FetchOutcome.success (⟨[1], some "x"⟩ : Page Nat),
        FetchOutcome.success ⟨[2], none⟩][0]? = some (.failure e) ∧
      isInternalServerError e = true ∧
      (fetchAllPages [FetchOutcome.success (⟨[1], some "x"⟩ : Page Nat),
        FetchOutcome.success ⟨[2], none⟩]).keys[0 + 1]? =
        (fetchAllPages [FetchOutcome.success (⟨[1], some "x"⟩ : Page Nat),
          FetchOutcome.success ⟨[2], none⟩]).keys[0]?)) ∧
    (fetchAllPagesWithChannel [FetchOutcome.success (⟨[1], some "x"⟩ : Page Nat),
        FetchOutcome.success ⟨[2], none⟩]).keys[0]? = some none ∧
    ((∃ p, [FetchOutcome.success (⟨[1], some "x"⟩ : Page Nat),
        FetchOutcome.success ⟨[2], none⟩][0]? = some (.success p) ∧
      (fetchAllPagesWithChannel
        [FetchOutcome.success (⟨[1], some "x"⟩ : Page Nat),
         FetchOutcome.success ⟨[2], none⟩]).keys[0 + 1]? =
        some p.paginationKey) ∨
     (∃ e, [FetchOutcome.success (⟨[1], some "x"⟩ : Page Nat),
        FetchOutcome.success ⟨[2], none⟩][0]? = some (.failure e) ∧
      isInternalServerError e = true ∧
      (fetchAllPagesWithChannel
        [FetchOutcome.success (⟨[1], some "x"⟩ : Page Nat),
         FetchOutcome.success ⟨[2], none⟩]).keys[0 + 1]? =
        (fetchAllPagesWithChannel
          [FetchOutcome.success (⟨[1], some "x"⟩ : Page Nat),
           FetchOutcome.success ⟨[2], none⟩]).keys[0]?)) := by
  have h := c9_token_threading Nat
    [FetchOutcome.success ⟨[1], some "x"⟩, FetchOutcome.success ⟨[2], none⟩]
  exact ⟨h.1 (by decide), h.2.1 0 (by decide), h.2.2.2.1 (by decide),
    h.2.2.2.2.1 0 (by decide)⟩

/-- C10: whenever a run of `fetchAllPages` returns, it returns either a
non-nil (possibly empty) slice with a nil error, or a nil slice with a
non-nil error — never both a collection and an error, and an empty
successful run is distinguishable from a failure. -/
theorem c10_no_partial_with_error (T : Type) (tr : List (FetchOutcome T))
    (gr : GoReturn T) (h : (fetchAllPages tr).result = some gr) :
    (∃ l, gr.data = some l ∧ gr.err = none) ∨
    (gr.data = none ∧ ∃ e, gr.err = some e) :=
  fetchAllPagesLoop_result_wf tr none [] gr h

/-- Witness for C10: the empty successful run returns the non-nil empty
slice and a nil error. -/
theorem c10_witness :
    (∃ l, (⟨some [], none⟩ : GoReturn Nat).data = some l ∧
      (⟨some [], none⟩ : GoReturn Nat).err = none) ∨
    ((⟨some [], none⟩ : GoReturn Nat).data = none ∧
      ∃ e, (⟨some [], none⟩ : GoReturn Nat).err = some e) :=
  c10_no_partial_with_error Nat [FetchOutcome.success ⟨[], none⟩]
    ⟨some [], none⟩ (by decide)

end JQuants
